import Mathlib

/-!
Verification development for the live-parking-norwich repository.

The repository is a three-stage ETL pipeline (fetch → parse → transform)
wrapped in a class `LiveParkingNorwich` whose `refresh()` method catches
every exception and records success/failure state on the instance
(`last_updated`, `success`, `error_message`, `traceback`).

This file gives a shallow embedding of that pipeline:
* the regular-expression name repair `sub(r'Nor(?:wic)?\b', 'Norwich', name)`
  followed by `sub(r'NORW\b', 'NORWICH', name)` is embedded as a scanner
  over `List Char` (`norSub`, `norwSub`);
* the XML layer (`xml.etree.ElementTree`) is embedded as a rose tree
  `XmlElem` whose tags are the namespace-resolved local names
  (`d2lm:publicationTime` is modelled as the tag `publicationTime`);
  `find(".//tag")` / `findall` become document-order (preorder) searches;
* Python exceptions become an error type `PyErr`, fallible steps return
  `Except PyErr`;
* `int(...)` / `float(...)` string conversion is modelled by `pyInt` /
  `pyFloat` (decimal notation as used by the feed; exotic acceptances of
  Python such as underscores in literals, infinities and exponent syntax
  are not modelled, and no arithmetic is ever performed on the float, so
  it is kept as an exact unnormalised decimal `PyFloat`);
* `datetime.strptime(s, Config.DATE_FORMAT)` is kept abstract as a
  function parameter `strptime : String → Option Timestamp`
  (the `config` module holding `DATE_FORMAT` is external configuration),
  and `traceback.format_tb` as a parameter `fmt_tb : PyErr → List String`;
* `refresh` becomes a state-passing function on `LPNState`, taking the
  outcome of `urlopen`/`ElementTree.fromstring` as an
  `Except PyErr XmlElem` input.
-/

/-- Models Python re module word characters (`\w`) for the ASCII range used
by the feed: letters, digits and underscore. -/
def wordChar (c : Char) : Bool := c.isAlphanum || c == '_'

/-- Word boundary test after a match: the regex `\b` holds between the last
(word) character of the matched text and the following position exactly when
the following character is absent or not a word character. -/
def boundary : List Char → Bool
  | [] => true
  | c :: _ => !wordChar c

/-- The replacement text of the first substitution in
`sub(r'Nor(?:wic)?\b', 'Norwich', name)`. -/
def norwichLC : List Char := ['N', 'o', 'r', 'w', 'i', 'c', 'h']

/-- The replacement text of the second substitution
`sub(r'NORW\b', 'NORWICH', name)`. -/
def norwichUC : List Char := ['N', 'O', 'R', 'W', 'I', 'C', 'H']

/-- Embedding of `re.sub(r'Nor(?:wic)?\b', 'Norwich', name)`: scan left to
right; at each position try the greedy alternative `Norwic` followed by a
word boundary, then `Nor` followed by a word boundary; on a match emit
`Norwich` and continue after the matched text, otherwise copy one character.
In the two no-boundary branches the characters `o r (w i c)` can never
start a match (every pattern starts with `N`), so the scanner copies them;
writing the copies out keeps the recursion structural. -/
def norSub : List Char → List Char
  | 'N' :: 'o' :: 'r' :: 'w' :: 'i' :: 'c' :: rest =>
      if boundary rest then norwichLC ++ norSub rest
      else 'N' :: 'o' :: 'r' :: 'w' :: 'i' :: 'c' :: norSub rest
  | 'N' :: 'o' :: 'r' :: rest =>
      if boundary rest then norwichLC ++ norSub rest
      else 'N' :: 'o' :: 'r' :: norSub rest
  | c :: cs => c :: norSub cs
  | [] => []

/-- Embedding of `re.sub(r'NORW\b', 'NORWICH', name)`, same scanning scheme
as `norSub`. -/
def norwSub : List Char → List Char
  | 'N' :: 'O' :: 'R' :: 'W' :: rest =>
      if boundary rest then norwichUC ++ norwSub rest
      else 'N' :: 'O' :: 'R' :: 'W' :: norwSub rest
  | c :: cs => c :: norwSub cs
  | [] => []

/-- The two name-repair substitutions applied in source order:
`name = sub(r'Nor(?:wic)?\b', 'Norwich', name)` then
`name = sub(r'NORW\b', 'NORWICH', name)`. -/
def repairName (name : String) : String := String.mk (norwSub (norSub name.data))

/-- Decidable test that `pat` is an initial segment of `s`. -/
def leadsWith : List Char → List Char → Bool
  | [], _ => true
  | _ :: _, [] => false
  | p :: ps, s :: ss => p == s && leadsWith ps ss

/-- The long alternative of the first pattern, `Norwic`. -/
def pNorwic : List Char := ['N', 'o', 'r', 'w', 'i', 'c']

/-- The short alternative of the first pattern, `Nor`. -/
def pNor : List Char := ['N', 'o', 'r']

/-- The second pattern, `NORW`. -/
def pNorw : List Char := ['N', 'O', 'R', 'W']

/-- The regex pattern `pat` followed by `\b` matches at the start of `s`. -/
def matchHere (pat : List Char) (s : List Char) : Bool :=
  leadsWith pat s && boundary (List.drop pat.length s)

/-- No position of the string matches `Nor\b` or `Norwic\b`
(i.e. `re.search(r'Nor(?:wic)?\b', s)` finds nothing). -/
def noNorMatch : List Char → Bool
  | [] => true
  | c :: cs => !matchHere pNorwic (c :: cs) && !matchHere pNor (c :: cs) && noNorMatch cs

/-- No position of the string matches `NORW\b`
(i.e. `re.search(r'NORW\b', s)` finds nothing). -/
def noNorwMatch : List Char → Bool
  | [] => true
  | c :: cs => !matchHere pNorw (c :: cs) && noNorwMatch cs

/-- Value of a non-empty digit string, as used by Python int parsing. -/
def digitsToNat (ds : List Char) : Nat :=
  List.foldl (fun a c => a * 10 + (c.toNat - 48)) 0 ds

/-- A non-empty all-digit character list. -/
def decDigits (ds : List Char) : Bool := !ds.isEmpty && ds.all Char.isDigit

/-- Strip leading and trailing whitespace, as Python string conversion
functions do before parsing. -/
def trimChars (l : List Char) : List Char :=
  List.reverse (List.dropWhile Char.isWhitespace
    (List.reverse (List.dropWhile Char.isWhitespace l)))

/-- Sign and digits of `int(str)` after stripping. -/
def pyIntChars : List Char → Option Int
  | '+' :: ds => if decDigits ds then some (Int.ofNat (digitsToNat ds)) else none
  | '-' :: ds => if decDigits ds then some (-Int.ofNat (digitsToNat ds)) else none
  | ds => if decDigits ds then some (Int.ofNat (digitsToNat ds)) else none

/-- Models Python `int(s)` on feed-style strings: optional surrounding
whitespace, optional sign, one or more decimal digits; anything else raises
`ValueError`, modelled as `none`. -/
def pyInt (s : String) : Option Int := pyIntChars (trimChars s.data)

/-- The exact value parsed by Python `float(s)` for plain decimal notation,
kept unnormalised as `num / 10 ^ exp10`. No arithmetic is ever performed on
the occupancy percentage downstream, so this representation is faithful. -/
structure PyFloat where
  num : Int
  exp10 : Nat
deriving DecidableEq, Repr

/-- Digits with an optional single decimal point (at least one digit in
total): the magnitude grammar of Python float literals as used by the feed.
Returns the combined digit value and the number of fractional digits. -/
def pyFloatMag (ds : List Char) : Option (Nat × Nat) :=
  match List.splitOn '.' ds with
  | [ip] => if decDigits ip then some (digitsToNat ip, 0) else none
  | [ip, fp] =>
      if (ip.all Char.isDigit && fp.all Char.isDigit) && (!ip.isEmpty || !fp.isEmpty) then
        some (digitsToNat ip * 10 ^ fp.length + digitsToNat fp, fp.length)
      else none
  | _ => none

/-- Sign handling of `float(str)` after stripping. -/
def pyFloatChars : List Char → Option PyFloat
  | '+' :: ds => Option.map (fun p => PyFloat.mk (Int.ofNat p.1) p.2) (pyFloatMag ds)
  | '-' :: ds => Option.map (fun p => PyFloat.mk (-Int.ofNat p.1) p.2) (pyFloatMag ds)
  | ds => Option.map (fun p => PyFloat.mk (Int.ofNat p.1) p.2) (pyFloatMag ds)

/-- Models Python `float(s)` for decimal notation: optional surrounding
whitespace, optional sign, digits with an optional decimal point. -/
def pyFloat (s : String) : Option PyFloat := pyFloatChars (trimChars s.data)

/-- Models Python `str.split(":")`: split on every colon, never returns an
empty list, `"a:"` gives `["a", ""]`, a string without a colon gives a
one-element list. -/
def splitOnColon : List Char → List (List Char)
  | [] => [[]]
  | c :: rest =>
      if c = ':' then [] :: splitOnColon rest
      else
        match splitOnColon rest with
        | [] => [[c]]
        | p :: ps => (c :: p) :: ps

/-- An `xml.etree.ElementTree` element: a tag (namespace-resolved local
name), optional text content, and child elements in document order. -/
inductive XmlElem where
  | mk (tag : String) (text : Option String) (children : List XmlElem)

/-- Tag of an element. -/
def XmlElem.tag : XmlElem → String
  | .mk t _ _ => t

/-- The `.text` attribute of an element (`None` when the element has no
text node). -/
def XmlElem.text : XmlElem → Option String
  | .mk _ tx _ => tx

/-- Child elements, in document order. -/
def XmlElem.children : XmlElem → List XmlElem
  | .mk _ _ cs => cs

mutual

/-- An element followed by all of its descendants, in document (preorder)
order — the order `ElementTree` iteration uses. -/
def descElem : XmlElem → List XmlElem
  | .mk t tx cs => .mk t tx cs :: descChildren cs

/-- All elements of a forest together with their descendants, in document
order. -/
def descChildren : List XmlElem → List XmlElem
  | [] => []
  | e :: rest => descElem e ++ descChildren rest

end

/-- Models `root.find(".//d2lm:" ++ tag, namespace)`: the first descendant
of `root` (excluding `root` itself) with the given tag, in document order;
`None` when there is none. -/
def findDesc (root : XmlElem) (tag : String) : Option XmlElem :=
  List.head? (List.filter (fun e => e.tag == tag) (descChildren root.children))

/-- Models `elem.find("d2lm:" ++ tag, namespace)`: first direct child with
the given tag. -/
def childFind (e : XmlElem) (tag : String) : Option XmlElem :=
  List.head? (List.filter (fun c => c.tag == tag) e.children)

/-- Text of the first direct child with the given tag, when both the child
and its text exist. -/
def childText (e : XmlElem) (tag : String) : Option String :=
  Option.bind (childFind e tag) XmlElem.text

/-- The Python exceptions that can arise in the pipeline. -/
inductive PyErr where
  | urlError (msg : String)
  | xmlParseError (msg : String)
  | attributeError (msg : String)
  | typeError (msg : String)
  | valueError (msg : String)
  | indexError (msg : String)
deriving DecidableEq, Repr

/-- `type(e).__name__` for each modelled exception. -/
def PyErr.pyName : PyErr → String
  | .urlError _ => "URLError"
  | .xmlParseError _ => "ParseError"
  | .attributeError _ => "AttributeError"
  | .typeError _ => "TypeError"
  | .valueError _ => "ValueError"
  | .indexError _ => "IndexError"

/-- `str(e)` for each modelled exception. -/
def PyErr.pyMsg : PyErr → String
  | .urlError m => m
  | .xmlParseError m => m
  | .attributeError m => m
  | .typeError m => m
  | .valueError m => m
  | .indexError m => m

/-- The string `f"{type(e).__name__}: {e}"` assigned to `error_message` by
the `except` block of `refresh`. -/
def errMessage (e : PyErr) : String := e.pyName ++ ": " ++ e.pyMsg

/-- `RawCarPark` named tuple. Modelled from the spec: the `structures`
module defining it is not under `src/`; fields and their order follow the
spec data model and the constructor call
`RawCarPark(identity, status, occupied_spaces, total_capacity, occupancy)`.
`identity` and `status` come straight from `.text`, which is `None` for an
element without a text node, hence `Option String`. -/
structure RawCarPark where
  identity : Option String
  status : Option String
  occupied_spaces : Int
  total_capacity : Int
  occupancy : PyFloat
deriving DecidableEq, Repr

/-- `CarPark` output value. Modelled from the spec: the `structures` module
defining it is not under `src/`; fields and their order follow the spec
data model and the constructor call
`CarPark(code, name, status, occupied_spaces, remaining_spaces,
total_capacity, occupancy)`. -/
structure CarPark where
  code : String
  name : String
  status : Option String
  occupied_spaces : Int
  remaining_spaces : Int
  total_capacity : Int
  occupancy : PyFloat
deriving DecidableEq, Repr

/-- `found.text` where `found` is the result of a `find`: raises
`AttributeError` when `find` returned `None`. -/
def textOf : Option XmlElem → Except PyErr (Option String)
  | none => .error (.attributeError "NoneType object has no attribute text")
  | some e => .ok e.text

/-- `int(text)`: `TypeError` on `None`, `ValueError` on a malformed string. -/
def intOfText : Option String → Except PyErr Int
  | none => .error (.typeError "int argument must be a string, not NoneType")
  | some s =>
      match pyInt s with
      | some n => .ok n
      | none => .error (.valueError ("invalid literal for int with base 10: " ++ s))

/-- `float(text)`: `TypeError` on `None`, `ValueError` on a malformed
string. -/
def floatOfText : Option String → Except PyErr PyFloat
  | none => .error (.typeError "float argument must be a string, not NoneType")
  | some s =>
      match pyFloat s with
      | some q => .ok q
      | none => .error (.valueError ("could not convert string to float: " ++ s))

/-- The body of the inner loop of `_parse_xml_data`: extract the five
required child text fields of one `situationRecord` element, in source
order, converting the numeric ones. -/
def extractRecord (situation_record : XmlElem) : Except PyErr RawCarPark := do
  let identity ← textOf (childFind situation_record "carParkIdentity")
  let status ← textOf (childFind situation_record "carParkStatus")
  let occupied_spaces ← intOfText (← textOf (childFind situation_record "occupiedSpaces"))
  let total_capacity ← intOfText (← textOf (childFind situation_record "totalCapacity"))
  let occupancy ← floatOfText (← textOf (childFind situation_record "carParkOccupancy"))
  pure (RawCarPark.mk identity status occupied_spaces total_capacity occupancy)

/-- Models `root.findall(".//d2lm:payloadPublication/d2lm:situation", ns)`:
the `situation` children of every `payloadPublication` descendant, in
document order. -/
def situationsOf (root : XmlElem) : List XmlElem :=
  List.flatMap
    (List.filter (fun e => e.tag == "payloadPublication") (descChildren root.children))
    (fun p => List.filter (fun e => e.tag == "situation") p.children)

/-- All `situationRecord` elements visited by the two nested `for` loops of
`_parse_xml_data`, in document order: outer `situation` order, then inner
`situationRecord` order within each `situation`. -/
def recordsOf (root : XmlElem) : List XmlElem :=
  List.flatMap (situationsOf root)
    (fun s => List.filter (fun e => e.tag == "situationRecord") s.children)

/-- A `for` loop appending `f a` for each element to an accumulator list,
with any raised exception aborting the whole loop — the iteration scheme of
both `_parse_xml_data` and `_transform_data_to_car_parks`. -/
def mapE {α β : Type} (f : α → Except PyErr β) : List α → Except PyErr (List β)
  | [] => .ok []
  | a :: rest => do
      let b ← f a
      let bs ← mapE f rest
      pure (b :: bs)

/-- Timestamps are never computed with, only carried, so they are kept
abstract as the underlying text. -/
abbrev Timestamp := String

/-- `LiveParkingNorwich._parse_xml_data(xml_data, namespace)`: read the
publication time (first `publicationTime` descendant), convert it with
`datetime.strptime` (passed in as `strptime`, since `Config.DATE_FORMAT` is
external configuration), then extract every `situationRecord` of every
`situation`, aborting on the first failure. Returns the record list and the
parsed publication time. -/
def parse_xml_data (strptime : String → Option Timestamp) (root : XmlElem) :
    Except PyErr (List RawCarPark × Timestamp) := do
  let publication_time ← textOf (findDesc root "publicationTime")
  let last_updated ←
    match publication_time with
    | none => Except.error (.typeError "strptime argument must be str, not None")
    | some s =>
        match strptime s with
        | some t => Except.ok t
        | none => Except.error (.valueError ("time data does not match format: " ++ s))
  let car_park_data ← mapE extractRecord (recordsOf root)
  pure (car_park_data, last_updated)

/-- `identity_parts[i]`: list indexing raising `IndexError` past the end. -/
def listIdx {α : Type} (l : List α) (i : Nat) : Except PyErr α :=
  match l[i]? with
  | some x => Except.ok x
  | none => Except.error (.indexError "list index out of range")

/-- The body of the loop of `_transform_data_to_car_parks` for one raw
record: split the identity on `":"`, take `identity_parts[1]` as the code
and `identity_parts[0]` as the name, repair the name, compute
`remaining_spaces = total_capacity - occupied_spaces`, and build the
`CarPark`. `data.identity.split` raises `AttributeError` when the identity
is `None`. -/
def transform_one (data : RawCarPark) : Except PyErr CarPark := do
  let idStr ←
    match data.identity with
    | none => Except.error (.attributeError "NoneType object has no attribute split")
    | some s => Except.ok s
  let identity_parts := List.map String.mk (splitOnColon idStr.data)
  let code ← listIdx identity_parts 1
  let name0 ← listIdx identity_parts 0
  let name := repairName name0
  let remaining_spaces := data.total_capacity - data.occupied_spaces
  pure (CarPark.mk code name data.status data.occupied_spaces remaining_spaces
    data.total_capacity data.occupancy)

/-- `LiveParkingNorwich._transform_data_to_car_parks(car_park_data)`. -/
def transform_data_to_car_parks (car_park_data : List RawCarPark) :
    Except PyErr (List CarPark) :=
  mapE transform_one car_park_data

/-- The value held by the `traceback` instance attribute: the code assigns
the Python string `""` on success and the `list[str]` result of
`traceback.format_tb` on failure, so the attribute is dynamically either a
string or a list of strings. -/
inductive TbVal where
  | str (s : String)
  | list (frames : List String)
deriving DecidableEq, Repr

/-- The mutable instance state of `LiveParkingNorwich` read through its
properties. All four fields are initialised to `None` in `__init__`. -/
structure LPNState where
  last_updated : Option Timestamp
  success : Option Bool
  error_message : Option String
  traceback : Option TbVal
deriving DecidableEq, Repr

/-- The state set up by `__init__`. -/
def initState : LPNState := LPNState.mk none none none none

/-- The `except Exception` block of `refresh`: set `success = False`,
`error_message = f"{type(e).__name__}: {e}"`,
`traceback = format_tb(e.__traceback__)`; `last_updated` is not assigned. -/
def failUpdate (st : LPNState) (e : PyErr) (fmt_tb : PyErr → List String) : LPNState :=
  { st with
      success := some false
      error_message := some (errMessage e)
      traceback := some (.list (fmt_tb e)) }

/-- `LiveParkingNorwich.refresh()`. The outcome of
`_retrieve_xml_data(url)` plus `ElementTree.fromstring` is the `feed`
input (a `URLError` or XML `ParseError`, or the parsed tree). On success of
the whole chain it sets `success = True`, `error_message = ""`,
`traceback = ""` (the empty string, per the source) and returns the car
parks; any exception is caught by `failUpdate`. `last_updated` is assigned
by the tuple assignment
`car_park_data, self.__last_updated = ..._parse_xml_data(...)`, i.e. only
once parsing has succeeded — a later transform failure leaves the new
timestamp in place, an earlier failure leaves the old value in place. -/
def refresh (strptime : String → Option Timestamp) (fmt_tb : PyErr → List String)
    (feed : Except PyErr XmlElem) (st : LPNState) : List CarPark × LPNState :=
  match feed with
  | .error e => ([], failUpdate st e fmt_tb)
  | .ok root =>
      match parse_xml_data strptime root with
      | .error e => ([], failUpdate st e fmt_tb)
      | .ok (car_park_data, ts) =>
          let st1 := { st with last_updated := some ts }
          match transform_data_to_car_parks car_park_data with
          | .error e => ([], failUpdate st1 e fmt_tb)
          | .ok car_parks =>
              (car_parks,
                { st1 with
                    success := some true
                    error_message := some ""
                    traceback := some (.str "") })

/-- The exception caught by `refresh`, if any: the first failure along the
fetch → parse → transform chain. -/
def refresh_err (strptime : String → Option Timestamp)
    (feed : Except PyErr XmlElem) : Option PyErr :=
  match feed with
  | .error e => some e
  | .ok root =>
      match parse_xml_data strptime root with
      | .error e => some e
      | .ok (car_park_data, _) =>
          match transform_data_to_car_parks car_park_data with
          | .error e => some e
          | .ok _ => none

/-- A well-formed `situationRecord` element for concrete test feeds. -/
def recordElem (identity status occupied total occupancy : String) : XmlElem :=
  XmlElem.mk "situationRecord" none
    [ XmlElem.mk "carParkIdentity" (some identity) []
    , XmlElem.mk "carParkStatus" (some status) []
    , XmlElem.mk "occupiedSpaces" (some occupied) []
    , XmlElem.mk "totalCapacity" (some total) []
    , XmlElem.mk "carParkOccupancy" (some occupancy) [] ]

/-- A minimal feed document: a `publicationTime` and one `situation`
holding the given records, under a `payloadPublication`. -/
def feedOf (pt : String) (recs : List XmlElem) : XmlElem :=
  XmlElem.mk "d2LogicalModel" none
    [ XmlElem.mk "exchange" none []
    , XmlElem.mk "payloadPublication" none
        [ XmlElem.mk "publicationTime" (some pt) []
        , XmlElem.mk "situation" none recs ] ]

/-- The publication time used by the concrete test feeds. -/
def ptEx : String := "2024-03-01T10:30:00"

/-- A concrete stand-in for `datetime.strptime(s, Config.DATE_FORMAT)`
accepting exactly the test publication time. -/
def strptimeEx : String → Option Timestamp :=
  fun s => if s = ptEx then some ptEx else none

/-- A concrete stand-in for `traceback.format_tb`. -/
def fmtTbEx : PyErr → List String :=
  fun e => ["  File live_parking_norwich.py, in refresh", errMessage e]

/-- A feed with one fully well-formed record (120 of 500 spaces occupied,
truncated name `Nor`). -/
def sampleOk : XmlElem :=
  feedOf ptEx [recordElem "Harford, Ipswich Road, Nor:CPN0015" "open" "120" "500" "24.0"]

/-- A `situationRecord` element with no `carParkOccupancy` child. -/
def badRec2 : XmlElem :=
  XmlElem.mk "situationRecord" none
    [ XmlElem.mk "carParkIdentity" (some "St Andrews:CPN0017") []
    , XmlElem.mk "carParkStatus" (some "open") []
    , XmlElem.mk "occupiedSpaces" (some "50") []
    , XmlElem.mk "totalCapacity" (some "100") [] ]

/-- A feed whose second `situationRecord` is missing its
`carParkOccupancy` child. -/
def sampleBad : XmlElem :=
  feedOf ptEx
    [ recordElem "Harford, Ipswich Road, Nor:CPN0015" "open" "120" "500" "24.0"
    , badRec2 ]

/-- A feed whose only record has an identity without any colon. -/
def sampleNoColon : XmlElem :=
  feedOf ptEx [recordElem "NoColonHere" "open" "10" "20" "50.0"]

/-- A feed with a valid publication time and no `situation` elements at
all. -/
def sampleEmpty : XmlElem :=
  XmlElem.mk "d2LogicalModel" none
    [ XmlElem.mk "payloadPublication" none
        [ XmlElem.mk "publicationTime" (some ptEx) [] ] ]

/-- A `situationRecord` element carrying all five required child text
fields, with valid numeric values in the numeric ones. -/
def RecOk (r : XmlElem) : Prop :=
  (∃ e s, childFind r "carParkIdentity" = some e ∧ XmlElem.text e = some s) ∧
  (∃ e s, childFind r "carParkStatus" = some e ∧ XmlElem.text e = some s) ∧
  (∃ s n, childText r "occupiedSpaces" = some s ∧ pyInt s = some n) ∧
  (∃ s n, childText r "totalCapacity" = some s ∧ pyInt s = some n) ∧
  (∃ s q, childText r "carParkOccupancy" = some s ∧ pyFloat s = some q)

/-- The raw record `_parse_xml_data` builds from a well-formed
`situationRecord` element. -/
def rawOf (r : XmlElem) : RawCarPark :=
  RawCarPark.mk (childText r "carParkIdentity") (childText r "carParkStatus")
    (((childText r "occupiedSpaces").bind pyInt).getD 0)
    (((childText r "totalCapacity").bind pyInt).getD 0)
    (((childText r "carParkOccupancy").bind pyFloat).getD (PyFloat.mk 0 0))

/-- A `situationRecord` element that is missing one of its five required
child elements, or whose numeric field text does not convert. -/
def BadRec (r : XmlElem) : Prop :=
  childFind r "carParkIdentity" = none ∨ childFind r "carParkStatus" = none ∨
  childFind r "occupiedSpaces" = none ∨ childFind r "totalCapacity" = none ∨
  childFind r "carParkOccupancy" = none ∨
  (∃ s, childText r "occupiedSpaces" = some s ∧ pyInt s = none) ∨
  (∃ s, childText r "totalCapacity" = some s ∧ pyInt s = none) ∨
  (∃ s, childText r "carParkOccupancy" = some s ∧ pyFloat s = none)

/-- The `CarPark` built by the transform loop for a record whose identity is
present (total function used to state the mapping). -/
def carParkOf (r : RawCarPark) : CarPark :=
  CarPark.mk (((splitOnColon (r.identity.getD "").data).map String.mk)[1]?.getD "")
    (repairName (((splitOnColon (r.identity.getD "").data).map String.mk)[0]?.getD ""))
    r.status r.occupied_spaces (r.total_capacity - r.occupied_spaces)
    r.total_capacity r.occupancy

/-! ## Helper lemmas: prefix tests and the two scanners -/

theorem leadsWith_iff (p : List Char) : ∀ s, leadsWith p s = true ↔ ∃ t, s = p ++ t := by
  induction p with
  | nil => intro s; simp [leadsWith]
  | cons x ps ih =>
      intro s
      cases s with
      | nil => simp [leadsWith]
      | cons y ss =>
          simp only [leadsWith, Bool.and_eq_true, beq_iff_eq, ih ss, List.cons_append,
            List.cons.injEq]
          constructor
          · rintro ⟨rfl, t, rfl⟩; exact ⟨t, rfl, rfl⟩
          · rintro ⟨t, rfl, rfl⟩; exact ⟨rfl, t, rfl⟩

theorem head?_shape {l : List Char} {a : Char} (h : l.head? = some a) : ∃ w, l = a :: w := by
  cases l with
  | nil => simp at h
  | cons b w => simp at h; exact ⟨w, by rw [h]⟩

theorem norSub_nonN (c : Char) (t : List Char) (h : c ≠ 'N') :
    norSub (c :: t) = c :: norSub t := by
  rw [norSub.eq_def]; split <;> simp_all

theorem norSub_head (u : List Char) : (norSub u).head? = u.head? := by
  induction u using norSub.induct <;> simp [norSub, norwichLC, *]

theorem norwSub_nonN (c : Char) (t : List Char) (h : c ≠ 'N') :
    norwSub (c :: t) = c :: norwSub t := by
  rw [norwSub.eq_def]; split <;> simp_all

theorem norwSub_head (u : List Char) : (norwSub u).head? = u.head? := by
  induction u using norwSub.induct <;> simp [norwSub, norwichUC, *]

theorem gen_append (f : List Char → List Char)
    (hcons : ∀ c t, c ≠ 'N' → f (c :: t) = c :: f t)
    (p : List Char) (hp : ∀ x ∈ p, x ≠ 'N') :
    ∀ u, f (p ++ u) = p ++ f u := by
  induction p with
  | nil => intro u; rfl
  | cons x ps ih =>
      intro u
      rw [List.cons_append, hcons x (ps ++ u) (hp x (by simp)),
        ih (fun y hy => hp y (by simp [hy])) u]
      rfl

theorem gen_leads (f : List Char → List Char)
    (hhead : ∀ u, (f u).head? = u.head?)
    (hcons : ∀ c t, c ≠ 'N' → f (c :: t) = c :: f t)
    (p : List Char) (hp : ∀ x ∈ p, x ≠ 'N') :
    ∀ u, leadsWith p (f u) = leadsWith p u := by
  induction p with
  | nil => intro u; rfl
  | cons x ps ih =>
      intro u
      cases hu : u with
      | nil =>
          have : f [] = [] := by
            have h0 := hhead []
            simp only [List.head?_nil] at h0
            exact List.head?_eq_none_iff.mp h0
          rw [this]
      | cons y t =>
          by_cases hxy : x = y
          · subst hxy
            rw [hcons x t (hp x (by simp))]
            simp only [leadsWith, beq_self_eq_true, Bool.true_and]
            exact ih (fun y hy => hp y (by simp [hy])) t

          · have hf := hhead (y :: t)
            simp only [List.head?_cons] at hf
            obtain ⟨w, hw⟩ := head?_shape hf
            have hbeq : (x == y) = false := by
              simp [beq_iff_eq]
              exact hxy
            rw [hw]
            simp [leadsWith, hbeq]

theorem gen_boundary (f : List Char → List Char)
    (hhead : ∀ u, (f u).head? = u.head?)
    (u : List Char) : boundary (f u) = boundary u := by
  cases hu : u with
  | nil =>
      have h0 := hhead []
      simp only [List.head?_nil] at h0
      rw [List.head?_eq_none_iff.mp h0]
  | cons c t =>
      have hf := hhead (c :: t)
      simp only [List.head?_cons] at hf
      obtain ⟨w, hw⟩ := head?_shape hf
      rw [hw]
      rfl

theorem gen_matchHere (f : List Char → List Char)
    (hhead : ∀ u, (f u).head? = u.head?)
    (hcons : ∀ c t, c ≠ 'N' → f (c :: t) = c :: f t)
    (q : List Char) (hq : ∀ x ∈ q, x ≠ 'N') (c : Char) (u : List Char) :
    matchHere ('N' :: q) (c :: f u) = matchHere ('N' :: q) (c :: u) := by
  by_cases hc : c = 'N'
  · subst hc
    simp only [matchHere, leadsWith, beq_self_eq_true, Bool.true_and, List.length_cons,
      List.drop_succ_cons]
    rw [gen_leads f hhead hcons q hq u]
    by_cases hl : leadsWith q u = true
    · obtain ⟨t, rfl⟩ := (leadsWith_iff q u).mp hl
      rw [hl, gen_append f hcons q hq t]
      simp only [Bool.true_and, List.drop_left]
      exact gen_boundary f hhead t
    · rw [Bool.eq_false_iff.mpr hl]
      simp
  · have hbeq : ('N' == c) = false := by
      simp [beq_iff_eq]
      exact fun h => hc h.symm
    simp [matchHere, leadsWith, hbeq]

theorem matchHere_norSub (q : List Char) (hq : ∀ x ∈ q, x ≠ 'N') (c : Char) (u : List Char) :
    matchHere ('N' :: q) (c :: norSub u) = matchHere ('N' :: q) (c :: u) :=
  gen_matchHere norSub norSub_head norSub_nonN q hq c u

theorem matchHere_norwSub (q : List Char) (hq : ∀ x ∈ q, x ≠ 'N') (c : Char) (u : List Char) :
    matchHere ('N' :: q) (c :: norwSub u) = matchHere ('N' :: q) (c :: u) :=
  gen_matchHere norwSub norwSub_head norwSub_nonN q hq c u

theorem matchHere_norwic_eval (rest : List Char) :
    matchHere pNorwic ('N' :: 'o' :: 'r' :: 'w' :: 'i' :: 'c' :: rest) = boundary rest := by
  simp [matchHere, pNorwic, leadsWith]

theorem matchHere_nor_eval (rest : List Char) :
    matchHere pNor ('N' :: 'o' :: 'r' :: rest) = boundary rest := by
  simp [matchHere, pNor, leadsWith]

theorem matchHere_norw_eval (rest : List Char) :
    matchHere pNorw ('N' :: 'O' :: 'R' :: 'W' :: rest) = boundary rest := by
  simp [matchHere, pNorw, leadsWith]

theorem matchHere_norwic_ne (c : Char) (cs : List Char) (h : c ≠ 'N') :
    matchHere pNorwic (c :: cs) = false := by
  have hbeq : ('N' == c) = false := by
    simp [beq_iff_eq]
    exact fun hx => h hx.symm
  simp [matchHere, pNorwic, leadsWith, hbeq]

theorem matchHere_nor_ne (c : Char) (cs : List Char) (h : c ≠ 'N') :
    matchHere pNor (c :: cs) = false := by
  have hbeq : ('N' == c) = false := by
    simp [beq_iff_eq]
    exact fun hx => h hx.symm
  simp [matchHere, pNor, leadsWith, hbeq]

theorem matchHere_norw_ne (c : Char) (cs : List Char) (h : c ≠ 'N') :
    matchHere pNorw (c :: cs) = false := by
  have hbeq : ('N' == c) = false := by
    simp [beq_iff_eq]
    exact fun hx => h hx.symm
  simp [matchHere, pNorw, leadsWith, hbeq]

theorem matchHere_norwic_short (rest : List Char)
    (hshape : ∀ r1 : List Char, rest = 'w' :: 'i' :: 'c' :: r1 → False) :
    matchHere pNorwic ('N' :: 'o' :: 'r' :: rest) = false := by
  cases hl : leadsWith pNorwic ('N' :: 'o' :: 'r' :: rest) with
  | false => simp [matchHere, hl]
  | true =>
      exfalso
      obtain ⟨t, ht⟩ := (leadsWith_iff pNorwic ('N' :: 'o' :: 'r' :: rest)).mp hl
      simp only [pNorwic, List.cons_append, List.nil_append, List.cons.injEq] at ht
      exact hshape t (by simp [ht])

theorem noNorMatch_cons (c : Char) (cs : List Char) :
    noNorMatch (c :: cs) =
      (!matchHere pNorwic (c :: cs) && !matchHere pNor (c :: cs) && noNorMatch cs) := rfl

theorem noNorwMatch_cons (c : Char) (cs : List Char) :
    noNorwMatch (c :: cs) = (!matchHere pNorw (c :: cs) && noNorwMatch cs) := rfl

theorem noNorMatch_skip (c : Char) (cs : List Char) (hc : c ≠ 'N') :
    noNorMatch (c :: cs) = noNorMatch cs := by
  rw [noNorMatch_cons, matchHere_norwic_ne c cs hc, matchHere_nor_ne c cs hc]
  simp

theorem noNorwMatch_skip (c : Char) (cs : List Char) (hc : c ≠ 'N') :
    noNorwMatch (c :: cs) = noNorwMatch cs := by
  rw [noNorwMatch_cons, matchHere_norw_ne c cs hc]
  simp

theorem matchHere_catchall_norwic (c : Char) (cs : List Char)
    (h2 : ∀ rest : List Char, c = 'N' → cs = 'o' :: 'r' :: rest → False) :
    matchHere pNorwic (c :: cs) = false := by
  cases hl : leadsWith pNorwic (c :: cs) with
  | false => simp [matchHere, hl]
  | true =>
      exfalso
      obtain ⟨t, ht⟩ := (leadsWith_iff pNorwic (c :: cs)).mp hl
      simp only [pNorwic, List.cons_append, List.nil_append, List.cons.injEq] at ht
      exact h2 ('w' :: 'i' :: 'c' :: t) ht.1 (by simp [ht.2])

theorem matchHere_catchall_nor (c : Char) (cs : List Char)
    (h2 : ∀ rest : List Char, c = 'N' → cs = 'o' :: 'r' :: rest → False) :
    matchHere pNor (c :: cs) = false := by
  cases hl : leadsWith pNor (c :: cs) with
  | false => simp [matchHere, hl]
  | true =>
      exfalso
      obtain ⟨t, ht⟩ := (leadsWith_iff pNor (c :: cs)).mp hl
      simp only [pNor, List.cons_append, List.nil_append, List.cons.injEq] at ht
      exact h2 t ht.1 (by simp [ht.2])

theorem matchHere_catchall_norw (c : Char) (cs : List Char)
    (h1 : ∀ rest : List Char, c = 'N' → cs = 'O' :: 'R' :: 'W' :: rest → False) :
    matchHere pNorw (c :: cs) = false := by
  cases hl : leadsWith pNorw (c :: cs) with
  | false => simp [matchHere, hl]
  | true =>
      exfalso
      obtain ⟨t, ht⟩ := (leadsWith_iff pNorw (c :: cs)).mp hl
      simp only [pNorw, List.cons_append, List.nil_append, List.cons.injEq] at ht
      exact h1 t ht.1 (by simp [ht.2])

theorem norSub_fix (t : List Char) (h : noNorMatch t = true) : norSub t = t := by
  induction t using norSub.induct with
  | case1 rest hb ih =>
      rw [noNorMatch_cons, matchHere_norwic_eval, hb] at h
      simp at h
  | case2 rest hb ih =>
      have hb' : boundary rest = false := by
        cases hx : boundary rest with
        | true => exact absurd hx hb
        | false => rfl
      rw [noNorMatch_cons, matchHere_norwic_eval, hb'] at h
      rw [noNorMatch_skip 'o' _ (by decide), noNorMatch_skip 'r' _ (by decide),
        noNorMatch_skip 'w' _ (by decide), noNorMatch_skip 'i' _ (by decide),
        noNorMatch_skip 'c' _ (by decide)] at h
      simp only [Bool.true_and, Bool.and_eq_true, Bool.not_eq_true] at h
      rw [norSub.eq_1, if_neg (by simp [hb']), ih h.2]
  | case3 rest hshape hb ih =>
      rw [noNorMatch_cons, matchHere_nor_eval, hb] at h
      simp at h
  | case4 rest hshape hb ih =>
      have hb' : boundary rest = false := by
        cases hx : boundary rest with
        | true => exact absurd hx hb
        | false => rfl
      rw [noNorMatch_cons, matchHere_nor_eval, hb'] at h
      rw [noNorMatch_skip 'o' _ (by decide), noNorMatch_skip 'r' _ (by decide)] at h
      simp only [Bool.and_eq_true, Bool.not_eq_true] at h
      rw [norSub.eq_2 rest hshape, if_neg (by simp [hb']), ih (by tauto)]
  | case5 c cs h1 h2 ih =>
      rw [noNorMatch_cons] at h
      simp only [Bool.and_eq_true, Bool.not_eq_true] at h
      rw [norSub.eq_3 c cs h1 h2, ih (by tauto)]
  | case6 => rfl

theorem norwSub_fix (t : List Char) (h : noNorwMatch t = true) : norwSub t = t := by
  induction t using norwSub.induct with
  | case1 rest hb ih =>
      rw [noNorwMatch_cons, matchHere_norw_eval, hb] at h
      simp at h
  | case2 rest hb ih =>
      have hb' : boundary rest = false := by
        cases hx : boundary rest with
        | true => exact absurd hx hb
        | false => rfl
      rw [noNorwMatch_cons, matchHere_norw_eval, hb'] at h
      rw [noNorwMatch_skip 'O' _ (by decide), noNorwMatch_skip 'R' _ (by decide),
        noNorwMatch_skip 'W' _ (by decide)] at h
      simp only [Bool.and_eq_true, Bool.not_eq_true] at h
      rw [norwSub.eq_1, if_neg (by simp [hb']), ih (by tauto)]
  | case3 c cs h1 ih =>
      rw [noNorwMatch_cons] at h
      simp only [Bool.and_eq_true, Bool.not_eq_true] at h
      rw [norwSub.eq_2 c cs h1, ih (by tauto)]
  | case4 => rfl

theorem matchHere_pNorwic_norSub (c : Char) (u : List Char) :
    matchHere pNorwic (c :: norSub u) = matchHere pNorwic (c :: u) :=
  gen_matchHere norSub norSub_head norSub_nonN ['o', 'r', 'w', 'i', 'c'] (by decide) c u

theorem matchHere_pNor_norSub (c : Char) (u : List Char) :
    matchHere pNor (c :: norSub u) = matchHere pNor (c :: u) :=
  gen_matchHere norSub norSub_head norSub_nonN ['o', 'r'] (by decide) c u

theorem matchHere_pNorwic_norwSub (c : Char) (u : List Char) :
    matchHere pNorwic (c :: norwSub u) = matchHere pNorwic (c :: u) :=
  gen_matchHere norwSub norwSub_head norwSub_nonN ['o', 'r', 'w', 'i', 'c'] (by decide) c u

theorem matchHere_pNor_norwSub (c : Char) (u : List Char) :
    matchHere pNor (c :: norwSub u) = matchHere pNor (c :: u) :=
  gen_matchHere norwSub norwSub_head norwSub_nonN ['o', 'r'] (by decide) c u

theorem matchHere_pNorw_norwSub (c : Char) (u : List Char) :
    matchHere pNorw (c :: norwSub u) = matchHere pNorw (c :: u) :=
  gen_matchHere norwSub norwSub_head norwSub_nonN ['O', 'R', 'W'] (by decide) c u

theorem noNorMatch_norwichLC (v : List Char) (hv : noNorMatch v = true) :
    noNorMatch (norwichLC ++ v) = true := by
  have h0 : matchHere pNorwic ('N' :: 'o' :: 'r' :: 'w' :: 'i' :: 'c' :: 'h' :: v) = false := by
    rw [matchHere_norwic_eval]
    rfl
  have h1 : matchHere pNor ('N' :: 'o' :: 'r' :: 'w' :: 'i' :: 'c' :: 'h' :: v) = false := by
    rw [matchHere_nor_eval]
    rfl
  show noNorMatch ('N' :: 'o' :: 'r' :: 'w' :: 'i' :: 'c' :: 'h' :: v) = true
  rw [noNorMatch_cons, h0, h1, noNorMatch_skip 'o' _ (by decide),
    noNorMatch_skip 'r' _ (by decide), noNorMatch_skip 'w' _ (by decide),
    noNorMatch_skip 'i' _ (by decide), noNorMatch_skip 'c' _ (by decide),
    noNorMatch_skip 'h' _ (by decide), hv]
  rfl

theorem noNorMatch_norwichUC (v : List Char) (hv : noNorMatch v = true) :
    noNorMatch (norwichUC ++ v) = true := by
  have h0 : matchHere pNorwic ('N' :: 'O' :: 'R' :: 'W' :: 'I' :: 'C' :: 'H' :: v) = false := by
    simp [matchHere, pNorwic, leadsWith]
  have h1 : matchHere pNor ('N' :: 'O' :: 'R' :: 'W' :: 'I' :: 'C' :: 'H' :: v) = false := by
    simp [matchHere, pNor, leadsWith]
  show noNorMatch ('N' :: 'O' :: 'R' :: 'W' :: 'I' :: 'C' :: 'H' :: v) = true
  rw [noNorMatch_cons, h0, h1, noNorMatch_skip 'O' _ (by decide),
    noNorMatch_skip 'R' _ (by decide), noNorMatch_skip 'W' _ (by decide),
    noNorMatch_skip 'I' _ (by decide), noNorMatch_skip 'C' _ (by decide),
    noNorMatch_skip 'H' _ (by decide), hv]
  rfl

theorem noNorwMatch_norwichUC (v : List Char) (hv : noNorwMatch v = true) :
    noNorwMatch (norwichUC ++ v) = true := by
  have h0 : matchHere pNorw ('N' :: 'O' :: 'R' :: 'W' :: 'I' :: 'C' :: 'H' :: v) = false := by
    rw [matchHere_norw_eval]
    rfl
  show noNorwMatch ('N' :: 'O' :: 'R' :: 'W' :: 'I' :: 'C' :: 'H' :: v) = true
  rw [noNorwMatch_cons, h0, noNorwMatch_skip 'O' _ (by decide),
    noNorwMatch_skip 'R' _ (by decide), noNorwMatch_skip 'W' _ (by decide),
    noNorwMatch_skip 'I' _ (by decide), noNorwMatch_skip 'C' _ (by decide),
    noNorwMatch_skip 'H' _ (by decide), hv]
  rfl

theorem norSub_noMatch (s : List Char) : noNorMatch (norSub s) = true := by
  induction s using norSub.induct with
  | case1 rest hb ih =>
      rw [norSub.eq_1, if_pos hb]
      exact noNorMatch_norwichLC _ ih
  | case2 rest hb ih =>
      rw [norSub.eq_1, if_neg hb]
      have hr : 'o' :: 'r' :: 'w' :: 'i' :: 'c' :: norSub rest =
          norSub ('o' :: 'r' :: 'w' :: 'i' :: 'c' :: rest) := by
        rw [norSub_nonN 'o' _ (by decide), norSub_nonN 'r' _ (by decide),
          norSub_nonN 'w' _ (by decide), norSub_nonN 'i' _ (by decide),
          norSub_nonN 'c' _ (by decide)]
      have hb' : boundary rest = false := by
        cases hx : boundary rest with
        | true => exact absurd hx hb
        | false => rfl
      rw [noNorMatch_cons, hr, matchHere_pNorwic_norSub 'N' _, matchHere_pNor_norSub 'N' _,
        matchHere_norwic_eval, hb', matchHere_nor_eval, ← hr,
        noNorMatch_skip 'o' _ (by decide), noNorMatch_skip 'r' _ (by decide),
        noNorMatch_skip 'w' _ (by decide), noNorMatch_skip 'i' _ (by decide),
        noNorMatch_skip 'c' _ (by decide), ih]
      rfl
  | case3 rest hshape hb ih =>
      rw [norSub.eq_2 rest hshape, if_pos hb]
      exact noNorMatch_norwichLC _ ih
  | case4 rest hshape hb ih =>
      rw [norSub.eq_2 rest hshape, if_neg hb]
      have hr : 'o' :: 'r' :: norSub rest = norSub ('o' :: 'r' :: rest) := by
        rw [norSub_nonN 'o' _ (by decide), norSub_nonN 'r' _ (by decide)]
      have hb' : boundary rest = false := by
        cases hx : boundary rest with
        | true => exact absurd hx hb
        | false => rfl
      rw [noNorMatch_cons, hr, matchHere_pNorwic_norSub 'N' _, matchHere_pNor_norSub 'N' _,
        matchHere_norwic_short rest hshape, matchHere_nor_eval, hb', ← hr,
        noNorMatch_skip 'o' _ (by decide), noNorMatch_skip 'r' _ (by decide), ih]
      rfl
  | case5 c cs h1 h2 ih =>
      rw [norSub.eq_3 c cs h1 h2, noNorMatch_cons, matchHere_pNorwic_norSub c cs,
        matchHere_pNor_norSub c cs, matchHere_catchall_norwic c cs h2,
        matchHere_catchall_nor c cs h2, ih]
      rfl
  | case6 => rfl

theorem norwSub_noMatch (s : List Char) : noNorwMatch (norwSub s) = true := by
  induction s using norwSub.induct with
  | case1 rest hb ih =>
      rw [norwSub.eq_1, if_pos hb]
      exact noNorwMatch_norwichUC _ ih
  | case2 rest hb ih =>
      rw [norwSub.eq_1, if_neg hb]
      have hr : 'O' :: 'R' :: 'W' :: norwSub rest = norwSub ('O' :: 'R' :: 'W' :: rest) := by
        rw [norwSub_nonN 'O' _ (by decide), norwSub_nonN 'R' _ (by decide),
          norwSub_nonN 'W' _ (by decide)]
      have hb' : boundary rest = false := by
        cases hx : boundary rest with
        | true => exact absurd hx hb
        | false => rfl
      rw [noNorwMatch_cons, hr, matchHere_pNorw_norwSub 'N' _,
        matchHere_norw_eval, hb', ← hr,
        noNorwMatch_skip 'O' _ (by decide), noNorwMatch_skip 'R' _ (by decide),
        noNorwMatch_skip 'W' _ (by decide), ih]
      rfl
  | case3 c cs h1 ih =>
      rw [norwSub.eq_2 c cs h1, noNorwMatch_cons, matchHere_pNorw_norwSub c cs,
        matchHere_catchall_norw c cs h1, ih]
      rfl
  | case4 => rfl

theorem bnot_true {b : Bool} (h : (!b) = true) : b = false := by
  cases b
  · rfl
  · exact absurd h (by decide)

theorem norwSub_keeps_noNorMatch (t : List Char) (h : noNorMatch t = true) :
    noNorMatch (norwSub t) = true := by
  induction t using norwSub.induct with
  | case1 rest hb ih =>
      rw [norwSub.eq_1, if_pos hb]
      rw [noNorMatch_cons, noNorMatch_skip 'O' _ (by decide),
        noNorMatch_skip 'R' _ (by decide), noNorMatch_skip 'W' _ (by decide)] at h
      simp only [Bool.and_eq_true, Bool.not_eq_true] at h
      exact noNorMatch_norwichUC _ (ih (by tauto))
  | case2 rest hb ih =>
      rw [norwSub.eq_1, if_neg hb]
      have hr : 'O' :: 'R' :: 'W' :: norwSub rest = norwSub ('O' :: 'R' :: 'W' :: rest) := by
        rw [norwSub_nonN 'O' _ (by decide), norwSub_nonN 'R' _ (by decide),
          norwSub_nonN 'W' _ (by decide)]
      rw [noNorMatch_cons] at h
      simp only [Bool.and_eq_true] at h
      have hm1 := bnot_true h.1.1
      have hm2 := bnot_true h.1.2
      have htail : noNorMatch rest = true := by
        have h2 := h.2
        rw [noNorMatch_skip 'O' _ (by decide), noNorMatch_skip 'R' _ (by decide),
          noNorMatch_skip 'W' _ (by decide)] at h2
        exact h2
      rw [noNorMatch_cons, hr, matchHere_pNorwic_norwSub 'N' _, matchHere_pNor_norwSub 'N' _,
        hm1, hm2, ← hr, noNorMatch_skip 'O' _ (by decide),
        noNorMatch_skip 'R' _ (by decide), noNorMatch_skip 'W' _ (by decide), ih htail]
      rfl
  | case3 c cs h1 ih =>
      rw [norwSub.eq_2 c cs h1]
      rw [noNorMatch_cons] at h
      simp only [Bool.and_eq_true] at h
      have hm1 := bnot_true h.1.1
      have hm2 := bnot_true h.1.2
      rw [noNorMatch_cons, matchHere_pNorwic_norwSub c cs, matchHere_pNor_norwSub c cs,
        hm1, hm2, ih h.2]
      rfl
  | case4 => rfl

theorem noNorMatch_eq_wic (rest : List Char) (hb' : boundary rest = false) :
    noNorMatch ('N' :: 'o' :: 'r' :: 'w' :: 'i' :: 'c' :: rest) = noNorMatch rest := by
  have hw : boundary ('w' :: 'i' :: 'c' :: rest) = false := rfl
  rw [noNorMatch_cons, matchHere_norwic_eval, hb', matchHere_nor_eval, hw,
    noNorMatch_skip 'o' _ (by decide), noNorMatch_skip 'r' _ (by decide),
    noNorMatch_skip 'w' _ (by decide), noNorMatch_skip 'i' _ (by decide),
    noNorMatch_skip 'c' _ (by decide)]
  simp

theorem noNorMatch_eq_nor (rest : List Char)
    (hshape : ∀ r1 : List Char, rest = 'w' :: 'i' :: 'c' :: r1 → False)
    (hb' : boundary rest = false) :
    noNorMatch ('N' :: 'o' :: 'r' :: rest) = noNorMatch rest := by
  rw [noNorMatch_cons, matchHere_norwic_short rest hshape, matchHere_nor_eval, hb',
    noNorMatch_skip 'o' _ (by decide), noNorMatch_skip 'r' _ (by decide)]
  simp

theorem noNorMatch_eq_catch (c : Char) (cs : List Char)
    (h2 : ∀ rest : List Char, c = 'N' → cs = 'o' :: 'r' :: rest → False) :
    noNorMatch (c :: cs) = noNorMatch cs := by
  rw [noNorMatch_cons, matchHere_catchall_norwic c cs h2, matchHere_catchall_nor c cs h2]
  simp

theorem noNorwMatch_eq_norw (rest : List Char) (hb' : boundary rest = false) :
    noNorwMatch ('N' :: 'O' :: 'R' :: 'W' :: rest) = noNorwMatch rest := by
  rw [noNorwMatch_cons, matchHere_norw_eval, hb',
    noNorwMatch_skip 'O' _ (by decide), noNorwMatch_skip 'R' _ (by decide),
    noNorwMatch_skip 'W' _ (by decide)]
  simp

theorem noNorwMatch_eq_catch (c : Char) (cs : List Char)
    (h1 : ∀ rest : List Char, c = 'N' → cs = 'O' :: 'R' :: 'W' :: rest → False) :
    noNorwMatch (c :: cs) = noNorwMatch cs := by
  rw [noNorwMatch_cons, matchHere_catchall_norw c cs h1]
  simp

theorem norSub_len (u : List Char) : u.length ≤ (norSub u).length := by
  induction u using norSub.induct with
  | case1 rest hb ih =>
      rw [norSub.eq_1, if_pos hb]
      simp only [norwichLC, List.length_append, List.length_cons]
      omega
  | case2 rest hb ih =>
      rw [norSub.eq_1, if_neg hb]
      simp only [List.length_cons]
      omega
  | case3 rest hshape hb ih =>
      rw [norSub.eq_2 rest hshape, if_pos hb]
      simp only [norwichLC, List.length_append, List.length_cons]
      omega
  | case4 rest hshape hb ih =>
      rw [norSub.eq_2 rest hshape, if_neg hb]
      simp only [List.length_cons]
      omega
  | case5 c cs h1 h2 ih =>
      rw [norSub.eq_3 c cs h1 h2]
      simp only [List.length_cons]
      omega
  | case6 => simp

theorem norwSub_len (u : List Char) : u.length ≤ (norwSub u).length := by
  induction u using norwSub.induct with
  | case1 rest hb ih =>
      rw [norwSub.eq_1, if_pos hb]
      simp only [norwichUC, List.length_append, List.length_cons]
      omega
  | case2 rest hb ih =>
      rw [norwSub.eq_1, if_neg hb]
      simp only [List.length_cons]
      omega
  | case3 c cs h1 ih =>
      rw [norwSub.eq_2 c cs h1]
      simp only [List.length_cons]
      omega
  | case4 => simp

theorem norSub_len_strict (u : List Char) (h : noNorMatch u = false) :
    u.length < (norSub u).length := by
  induction u using norSub.induct with
  | case1 rest hb ih =>
      rw [norSub.eq_1, if_pos hb]
      have hlen := norSub_len rest
      simp only [norwichLC, List.length_append, List.length_cons, List.length_nil]
      omega
  | case2 rest hb ih =>
      have hb' : boundary rest = false := by
        cases hx : boundary rest with
        | true => exact absurd hx hb
        | false => rfl
      rw [noNorMatch_eq_wic rest hb'] at h
      rw [norSub.eq_1, if_neg hb]
      have := ih h
      simp only [List.length_cons]
      omega
  | case3 rest hshape hb ih =>
      rw [norSub.eq_2 rest hshape, if_pos hb]
      have hlen := norSub_len rest
      simp only [norwichLC, List.length_append, List.length_cons, List.length_nil]
      omega
  | case4 rest hshape hb ih =>
      have hb' : boundary rest = false := by
        cases hx : boundary rest with
        | true => exact absurd hx hb
        | false => rfl
      rw [noNorMatch_eq_nor rest hshape hb'] at h
      rw [norSub.eq_2 rest hshape, if_neg hb]
      have := ih h
      simp only [List.length_cons]
      omega
  | case5 c cs h1 h2 ih =>
      rw [noNorMatch_eq_catch c cs h2] at h
      rw [norSub.eq_3 c cs h1 h2]
      have := ih h
      simp only [List.length_cons]
      omega
  | case6 => exact absurd h (by simp [noNorMatch])

theorem norwSub_len_strict (u : List Char) (h : noNorwMatch u = false) :
    u.length < (norwSub u).length := by
  induction u using norwSub.induct with
  | case1 rest hb ih =>
      rw [norwSub.eq_1, if_pos hb]
      have hlen := norwSub_len rest
      simp only [norwichUC, List.length_append, List.length_cons, List.length_nil]
      omega
  | case2 rest hb ih =>
      have hb' : boundary rest = false := by
        cases hx : boundary rest with
        | true => exact absurd hx hb
        | false => rfl
      rw [noNorwMatch_eq_norw rest hb'] at h
      rw [norwSub.eq_1, if_neg hb]
      have := ih h
      simp only [List.length_cons]
      omega
  | case3 c cs h1 ih =>
      rw [noNorwMatch_eq_catch c cs h1] at h
      rw [norwSub.eq_2 c cs h1]
      have := ih h
      simp only [List.length_cons]
      omega
  | case4 => exact absurd h (by simp [noNorwMatch])

theorem repairName_idem_chars (s : String) : repairName (repairName s) = repairName s := by
  unfold repairName
  have h1 : (String.mk (norwSub (norSub s.data))).data = norwSub (norSub s.data) := rfl
  rw [h1]
  have hA : noNorMatch (norSub s.data) = true := norSub_noMatch _
  have hB : noNorMatch (norwSub (norSub s.data)) = true := norwSub_keeps_noNorMatch _ hA
  rw [norSub_fix _ hB]
  have hC : noNorwMatch (norwSub (norSub s.data)) = true := norwSub_noMatch _
  rw [norwSub_fix _ hC]

theorem repairName_fixed_iff (s : String) :
    repairName s = s ↔ (noNorMatch s.data = true ∧ noNorwMatch s.data = true) := by
  constructor
  · intro h
    have hd : norwSub (norSub s.data) = s.data := congrArg String.data h
    have hlen1 := norSub_len s.data
    have hlen2 := norwSub_len (norSub s.data)
    have hlen : (norwSub (norSub s.data)).length = s.data.length := by rw [hd]
    have hN : noNorMatch s.data = true := by
      cases hx : noNorMatch s.data with
      | true => rfl
      | false =>
          have hs := norSub_len_strict s.data hx
          exfalso
          omega
    have hfix : norSub s.data = s.data := norSub_fix _ hN
    have hd2 : norwSub s.data = s.data := by
      rw [hfix] at hd
      exact hd
    have hW : noNorwMatch s.data = true := by
      cases hx : noNorwMatch s.data with
      | true => rfl
      | false =>
          have hs := norwSub_len_strict s.data hx
          have hl := congrArg List.length hd2
          exfalso
          omega
    exact ⟨hN, hW⟩
  · rintro ⟨hN, hW⟩
    unfold repairName
    rw [norSub_fix _ hN, norwSub_fix _ hW]

/-! ## Helper lemmas: the loop scheme `mapE`, transform and parse -/

theorem getElem?_mem_list {α : Type} :
    ∀ (l : List α) (i : Nat) (a : α), l[i]? = some a → a ∈ l := by
  intro l
  induction l with
  | nil => intro i a h; simp at h
  | cons b rest ih =>
      intro i a h
      cases i with
      | zero =>
          simp only [List.getElem?_cons_zero, Option.some.injEq] at h
          rw [← h]
          exact List.mem_cons_self b rest
      | succ j =>
          simp only [List.getElem?_cons_succ] at h
          exact List.mem_cons_of_mem b (ih j a h)

theorem mapE_ok_map {α β : Type} (f : α → Except PyErr β) (g : α → β) :
    ∀ l : List α, (∀ a ∈ l, f a = .ok (g a)) → mapE f l = .ok (List.map g l) := by
  intro l
  induction l with
  | nil => intro _; rfl
  | cons a rest ih =>
      intro h
      have ha := h a (List.mem_cons_self a rest)
      have hr := ih (fun x hx => h x (List.mem_cons_of_mem a hx))
      simp [mapE, ha, hr, Bind.bind, Except.bind, pure, Except.pure]

theorem mapE_err_of_mem {α β : Type} (f : α → Except PyErr β) (r : α) :
    ∀ l : List α, r ∈ l → (∀ v, f r ≠ .ok v) → ∃ e, mapE f l = .error e := by
  intro l
  induction l with
  | nil => intro h; simp at h
  | cons a rest ih =>
      intro hmem hne
      cases hfa : f a with
      | error e => exact ⟨e, by simp [mapE, hfa, Bind.bind, Except.bind]⟩
      | ok b =>
          have hr : r ∈ rest := by
            cases List.mem_cons.mp hmem with
            | inl heq => exact absurd (heq ▸ hfa) (hne b)
            | inr h => exact h
          obtain ⟨e, he⟩ := ih hr hne
          exact ⟨e, by simp [mapE, hfa, he, Bind.bind, Except.bind]⟩

/-- The identity splits into at least a name and a code part (it contains a
colon). -/
theorem transform_one_ok (r : RawCarPark) (s : String) (h1 : r.identity = some s)
    (h2 : 2 ≤ (splitOnColon s.data).length) :
    transform_one r =
      .ok (CarPark.mk (((splitOnColon s.data).map String.mk)[1]?.getD "")
        (repairName (((splitOnColon s.data).map String.mk)[0]?.getD ""))
        r.status r.occupied_spaces (r.total_capacity - r.occupied_spaces)
        r.total_capacity r.occupancy) := by
  have hlen : 2 ≤ ((splitOnColon s.data).map String.mk).length := by
    rw [List.length_map]
    exact h2
  have h1get : ((splitOnColon s.data).map String.mk)[1]? =
      some ((splitOnColon s.data).map String.mk)[1] :=
    List.getElem?_eq_getElem (by omega)
  have h0get : ((splitOnColon s.data).map String.mk)[0]? =
      some ((splitOnColon s.data).map String.mk)[0] :=
    List.getElem?_eq_getElem (by omega)
  simp [transform_one, h1, listIdx, h1get, h0get, Bind.bind, Except.bind, pure, Except.pure]

/-- `RawCarPark` record whose identity contains no colon: indexing
`identity_parts[1]` raises `IndexError`. -/
theorem transform_one_no_colon (r : RawCarPark) (s : String) (h1 : r.identity = some s)
    (h2 : (splitOnColon s.data).length = 1) :
    transform_one r = .error (.indexError "list index out of range") := by
  have hnone : ((splitOnColon s.data).map String.mk)[1]? = none := by
    apply List.getElem?_eq_none
    rw [List.length_map]
    omega
  simp [transform_one, h1, listIdx, hnone, Bind.bind, Except.bind]

theorem splitOnColon_ne_nil : ∀ l : List Char, splitOnColon l ≠ [] := by
  intro l
  cases l with
  | nil => simp [splitOnColon]
  | cons c rest =>
      by_cases hc : c = ':'
      · simp [splitOnColon, hc]
      · simp only [splitOnColon, if_neg hc]
        cases splitOnColon rest <;> simp

theorem splitOnColon_len_one (l : List Char) :
    (splitOnColon l).length = 1 ↔ ':' ∉ l := by
  induction l with
  | nil => simp [splitOnColon]
  | cons c rest ih =>
      by_cases hc : c = ':'
      · subst hc
        simp only [splitOnColon, if_pos rfl, List.length_cons, List.mem_cons]
        constructor
        · intro h
          exfalso
          cases hx : splitOnColon rest with
          | nil => exact splitOnColon_ne_nil rest hx
          | cons p ps =>
              rw [hx] at h
              simp at h
        · intro h
          exact absurd (Or.inl trivial) h
      · simp only [splitOnColon, if_neg hc, List.mem_cons]
        cases hx : splitOnColon rest with
        | nil => exact absurd hx (splitOnColon_ne_nil rest)
        | cons p ps =>
            rw [hx] at ih
            simp only [List.length_cons] at ih
            simp only [List.length_cons]
            constructor
            · intro h
              intro hor
              cases hor with
              | inl heq => exact hc heq.symm
              | inr hmem => exact (ih.mp h) hmem
            · intro h
              exact ih.mpr (fun hmem => h (Or.inr hmem))

theorem extractRecord_ok (r : XmlElem) (h : RecOk r) :
    extractRecord r = .ok (rawOf r) := by
  obtain ⟨⟨e1, s1, hf1, ht1⟩, ⟨e2, s2, hf2, ht2⟩, ⟨s3, n3, hc3, hp3⟩,
    ⟨s4, n4, hc4, hp4⟩, ⟨s5, q5, hc5, hp5⟩⟩ := h
  obtain ⟨e3, hf3, ht3⟩ := Option.bind_eq_some.mp hc3
  obtain ⟨e4, hf4, ht4⟩ := Option.bind_eq_some.mp hc4
  obtain ⟨e5, hf5, ht5⟩ := Option.bind_eq_some.mp hc5
  have hct1 : childText r "carParkIdentity" = some s1 := by
    simp [childText, hf1, Option.bind, ht1]
  have hct2 : childText r "carParkStatus" = some s2 := by
    simp [childText, hf2, Option.bind, ht2]
  simp [extractRecord, rawOf, hf1, hf2, hf3, hf4, hf5, textOf, ht1, ht2, ht3, ht4, ht5,
    intOfText, floatOfText, hp3, hp4, hp5, hct1, hct2, hc3, hc4, hc5,
    Bind.bind, Except.bind, pure, Except.pure]

theorem extractRecord_ok_inv (r : XmlElem) (v : RawCarPark)
    (h : extractRecord r = .ok v) :
    (∃ e, childFind r "carParkIdentity" = some e) ∧
    (∃ e, childFind r "carParkStatus" = some e) ∧
    (∃ e s n, childFind r "occupiedSpaces" = some e ∧ XmlElem.text e = some s ∧
      pyInt s = some n) ∧
    (∃ e s n, childFind r "totalCapacity" = some e ∧ XmlElem.text e = some s ∧
      pyInt s = some n) ∧
    (∃ e s q, childFind r "carParkOccupancy" = some e ∧ XmlElem.text e = some s ∧
      pyFloat s = some q) := by
  cases hf1 : childFind r "carParkIdentity" with
  | none => simp [extractRecord, hf1, textOf, Bind.bind, Except.bind] at h
  | some e1 =>
  cases hf2 : childFind r "carParkStatus" with
  | none => simp [extractRecord, hf1, hf2, textOf, Bind.bind, Except.bind] at h
  | some e2 =>
  cases hf3 : childFind r "occupiedSpaces" with
  | none => simp [extractRecord, hf1, hf2, hf3, textOf, Bind.bind, Except.bind] at h
  | some e3 =>
  cases ht3 : XmlElem.text e3 with
  | none =>
      simp [extractRecord, hf1, hf2, hf3, ht3, textOf, intOfText, Bind.bind, Except.bind] at h
  | some s3 =>
  cases hp3 : pyInt s3 with
  | none =>
      simp [extractRecord, hf1, hf2, hf3, ht3, hp3, textOf, intOfText,
        Bind.bind, Except.bind] at h
  | some n3 =>
  cases hf4 : childFind r "totalCapacity" with
  | none =>
      simp [extractRecord, hf1, hf2, hf3, ht3, hp3, hf4, textOf, intOfText,
        Bind.bind, Except.bind] at h
  | some e4 =>
  cases ht4 : XmlElem.text e4 with
  | none =>
      simp [extractRecord, hf1, hf2, hf3, ht3, hp3, hf4, ht4, textOf, intOfText,
        Bind.bind, Except.bind] at h
  | some s4 =>
  cases hp4 : pyInt s4 with
  | none =>
      simp [extractRecord, hf1, hf2, hf3, ht3, hp3, hf4, ht4, hp4, textOf, intOfText,
        Bind.bind, Except.bind] at h
  | some n4 =>
  cases hf5 : childFind r "carParkOccupancy" with
  | none =>
      simp [extractRecord, hf1, hf2, hf3, ht3, hp3, hf4, ht4, hp4, hf5, textOf, intOfText,
        Bind.bind, Except.bind] at h
  | some e5 =>
  cases ht5 : XmlElem.text e5 with
  | none =>
      simp [extractRecord, hf1, hf2, hf3, ht3, hp3, hf4, ht4, hp4, hf5, ht5, textOf,
        intOfText, floatOfText, Bind.bind, Except.bind] at h
  | some s5 =>
  cases hp5 : pyFloat s5 with
  | none =>
      simp [extractRecord, hf1, hf2, hf3, ht3, hp3, hf4, ht4, hp4, hf5, ht5, hp5, textOf,
        intOfText, floatOfText, Bind.bind, Except.bind] at h
  | some q5 =>
      exact ⟨⟨e1, rfl⟩, ⟨e2, rfl⟩, ⟨e3, s3, n3, rfl, ht3, hp3⟩, ⟨e4, s4, n4, rfl, ht4, hp4⟩,
        ⟨e5, s5, q5, rfl, ht5, hp5⟩⟩

theorem extractRecord_bad (r : XmlElem) (hb : BadRec r) :
    ∀ v, extractRecord r ≠ .ok v := by
  intro v h
  have hinv := extractRecord_ok_inv r v h
  obtain ⟨⟨e1, hf1⟩, ⟨e2, hf2⟩, ⟨e3, s3, n3, hf3, ht3, hp3⟩, ⟨e4, s4, n4, hf4, ht4, hp4⟩,
    ⟨e5, s5, q5, hf5, ht5, hp5⟩⟩ := hinv
  rcases hb with hb | hb | hb | hb | hb | ⟨s, hcs, hps⟩ | ⟨s, hcs, hps⟩ | ⟨s, hcs, hps⟩
  · rw [hf1] at hb; exact Option.noConfusion hb
  · rw [hf2] at hb; exact Option.noConfusion hb
  · rw [hf3] at hb; exact Option.noConfusion hb
  · rw [hf4] at hb; exact Option.noConfusion hb
  · rw [hf5] at hb; exact Option.noConfusion hb
  · have : childText r "occupiedSpaces" = some s3 := by simp [childText, hf3, ht3]
    rw [this] at hcs
    injection hcs with hss
    rw [← hss] at hps
    rw [hps] at hp3
    exact Option.noConfusion hp3
  · have : childText r "totalCapacity" = some s4 := by simp [childText, hf4, ht4]
    rw [this] at hcs
    injection hcs with hss
    rw [← hss] at hps
    rw [hps] at hp4
    exact Option.noConfusion hp4
  · have : childText r "carParkOccupancy" = some s5 := by simp [childText, hf5, ht5]
    rw [this] at hcs
    injection hcs with hss
    rw [← hss] at hps
    rw [hps] at hp5
    exact Option.noConfusion hp5

theorem parse_ok (strptime : String → Option Timestamp) (root : XmlElem) (pe : XmlElem)
    (pts : String) (ts : Timestamp)
    (h1 : findDesc root "publicationTime" = some pe) (h2 : XmlElem.text pe = some pts)
    (h3 : strptime pts = some ts) (h4 : ∀ r ∈ recordsOf root, RecOk r) :
    parse_xml_data strptime root = .ok ((recordsOf root).map rawOf, ts) := by
  have hm := mapE_ok_map extractRecord rawOf (recordsOf root)
    (fun r hr => extractRecord_ok r (h4 r hr))
  simp [parse_xml_data, h1, h2, h3, textOf, hm, Bind.bind, Except.bind, pure, Except.pure]

theorem parse_err_of_bad (strptime : String → Option Timestamp) (root : XmlElem)
    (r : XmlElem) (hr : r ∈ recordsOf root) (hb : BadRec r) :
    ∃ e, parse_xml_data strptime root = .error e := by
  obtain ⟨e0, he0⟩ := mapE_err_of_mem extractRecord r (recordsOf root) hr
    (extractRecord_bad r hb)
  cases hpt : findDesc root "publicationTime" with
  | none =>
      exact ⟨PyErr.attributeError "NoneType object has no attribute text",
        by simp [parse_xml_data, hpt, textOf, Bind.bind, Except.bind]⟩
  | some pe =>
      cases htx : XmlElem.text pe with
      | none =>
          exact ⟨PyErr.typeError "strptime argument must be str, not None",
            by simp [parse_xml_data, hpt, htx, textOf, Bind.bind, Except.bind]⟩
      | some s =>
          cases hst : strptime s with
          | none =>
              exact ⟨PyErr.valueError ("time data does not match format: " ++ s), by
                simp [parse_xml_data, hpt, htx, hst, textOf, Bind.bind, Except.bind]⟩
          | some t =>
              exact ⟨e0, by
                simp [parse_xml_data, hpt, htx, hst, textOf, he0, Bind.bind, Except.bind]⟩

theorem errMessage_ne_empty (e : PyErr) : errMessage e ≠ "" := by
  intro h
  have hl := congrArg String.length h
  rw [errMessage, String.length_append, String.length_append] at hl
  have h2 : (": ").length = 2 := rfl
  rw [h2] at hl
  simp at hl

theorem refresh_err_spec (strptime : String → Option Timestamp)
    (fmt_tb : PyErr → List String) (feed : Except PyErr XmlElem) (st : LPNState) (e : PyErr)
    (h : refresh_err strptime feed = some e) :
    (refresh strptime fmt_tb feed st).1 = [] ∧
    (refresh strptime fmt_tb feed st).2.success = some false ∧
    (refresh strptime fmt_tb feed st).2.error_message = some (errMessage e) ∧
    (refresh strptime fmt_tb feed st).2.traceback = some (TbVal.list (fmt_tb e)) := by
  cases feed with
  | error e0 =>
      simp [refresh_err] at h
      simp [refresh, failUpdate, h]
  | ok root =>
      cases hp : parse_xml_data strptime root with
      | error e0 =>
          simp [refresh_err, hp] at h
          simp [refresh, hp, failUpdate, h]
      | ok pr =>
          obtain ⟨raws, ts⟩ := pr
          cases htr : transform_data_to_car_parks raws with
          | error e0 =>
              simp [refresh_err, hp, htr] at h
              simp [refresh, hp, htr, failUpdate, h]
          | ok parks =>
              simp [refresh_err, hp, htr] at h

theorem refresh_ok_spec (strptime : String → Option Timestamp)
    (fmt_tb : PyErr → List String) (root : XmlElem) (st : LPNState)
    (raws : List RawCarPark) (ts : Timestamp) (parks : List CarPark)
    (hp : parse_xml_data strptime root = .ok (raws, ts))
    (ht : transform_data_to_car_parks raws = .ok parks) :
    refresh strptime fmt_tb (.ok root) st =
      (parks, LPNState.mk (some ts) (some true) (some "") (some (TbVal.str ""))) := by
  cases st
  simp [refresh, hp, ht]

/-! ## Claim theorems -/

/-- C1: `refresh()` never lets an exception escape: whenever any step of the
fetch → parse → transform chain fails with exception `e`, `refresh()` returns
the empty list, sets `success = False`, sets `error_message` to the non-empty
string combining the failure kind and message, and sets `traceback` to the
captured call-stack trace. -/
theorem C1_refresh_failure_envelope (strptime : String → Option Timestamp)
    (fmt_tb : PyErr → List String) (feed : Except PyErr XmlElem) (st : LPNState) (e : PyErr)
    (h : refresh_err strptime feed = some e) :
    (refresh strptime fmt_tb feed st).1 = [] ∧
    (refresh strptime fmt_tb feed st).2.success = some false ∧
    (refresh strptime fmt_tb feed st).2.error_message = some (errMessage e) ∧
    errMessage e ≠ "" ∧
    (refresh strptime fmt_tb feed st).2.traceback = some (TbVal.list (fmt_tb e)) := by
  obtain ⟨h1, h2, h3, h4⟩ := refresh_err_spec strptime fmt_tb feed st e h
  exact ⟨h1, h2, h3, errMessage_ne_empty e, h4⟩

/-- C1 witness: a concrete unreachable-URL failure. -/
theorem C1_witness :
    refresh_err strptimeEx (Except.error (PyErr.urlError "Failed to retrieve XML data")) =
      some (PyErr.urlError "Failed to retrieve XML data") ∧
    (refresh strptimeEx fmtTbEx
      (Except.error (PyErr.urlError "Failed to retrieve XML data")) initState).1 = [] ∧
    (refresh strptimeEx fmtTbEx
      (Except.error (PyErr.urlError "Failed to retrieve XML data")) initState).2.success =
      some false := by
  have h := C1_refresh_failure_envelope strptimeEx fmtTbEx
    (Except.error (PyErr.urlError "Failed to retrieve XML data")) initState
    (PyErr.urlError "Failed to retrieve XML data") rfl
  exact ⟨rfl, h.1, h.2.1⟩

/-- C2: on a list of raw records whose identities all contain a colon, the
transform succeeds and is a one-to-one, order-preserving mapping: the i-th
output car park takes its code from the second colon-separated segment of the
i-th identity, its name from the repaired first segment, carries status,
occupied spaces, total capacity and occupancy through unchanged, and has
`remaining_spaces = total_capacity - occupied_spaces` with no clamping (the
integer may be negative). -/
theorem C2_transform_shape (rs : List RawCarPark)
    (h : ∀ r ∈ rs, ∃ s, r.identity = some s ∧ 2 ≤ (splitOnColon s.data).length) :
    ∃ l, transform_data_to_car_parks rs = .ok l ∧ l.length = rs.length ∧
      ∀ (i : Nat) (r : RawCarPark), rs[i]? = some r → ∃ c s, l[i]? = some c ∧
        r.identity = some s ∧
        c.code = ((splitOnColon s.data).map String.mk)[1]?.getD "" ∧
        c.name = repairName (((splitOnColon s.data).map String.mk)[0]?.getD "") ∧
        c.status = r.status ∧ c.occupied_spaces = r.occupied_spaces ∧
        c.total_capacity = r.total_capacity ∧ c.occupancy = r.occupancy ∧
        c.remaining_spaces = r.total_capacity - r.occupied_spaces := by
  have hok : mapE transform_one rs = .ok (rs.map carParkOf) := by
    apply mapE_ok_map
    intro r hr
    obtain ⟨s, hid, hlen⟩ := h r hr
    rw [transform_one_ok r s hid hlen]
    simp [carParkOf, hid]
  refine ⟨rs.map carParkOf, hok, by simp, ?_⟩
  intro i r hi
  obtain ⟨s, hid, hlen⟩ := h r (getElem?_mem_list rs i r hi)
  have hmap : (rs.map carParkOf)[i]? = some (carParkOf r) := by
    rw [List.getElem?_map, hi]
    rfl
  have hgd : r.identity.getD "" = s := by rw [hid]; rfl
  refine ⟨carParkOf r, s, hmap, hid, ?_, ?_, rfl, rfl, rfl, rfl, rfl⟩
  · simp [carParkOf, hgd]
  · simp [carParkOf, hgd]

/-- C2 witness: a two-record list, the second with `occupied > total`, so its
remaining spaces come out negative (no clamping). -/
theorem C2_witness :
    ∃ l, transform_data_to_car_parks
        [ RawCarPark.mk (some "Harford, Ipswich Road, Nor:CPN0015") (some "open") 120 500
            (PyFloat.mk 240 1)
        , RawCarPark.mk (some "Castle:CPN2") (some "open") 600 500 (PyFloat.mk 1200 1) ] =
      .ok l ∧ l.length = 2 ∧ ∃ c, l[1]? = some c ∧ c.remaining_spaces = -100 := by
  obtain ⟨l, hok, hlen, hidx⟩ := C2_transform_shape
    [ RawCarPark.mk (some "Harford, Ipswich Road, Nor:CPN0015") (some "open") 120 500
        (PyFloat.mk 240 1)
    , RawCarPark.mk (some "Castle:CPN2") (some "open") 600 500 (PyFloat.mk 1200 1) ]
    (by
      intro r hr
      simp only [List.mem_cons, List.not_mem_nil, or_false] at hr
      rcases hr with rfl | rfl
      · exact ⟨"Harford, Ipswich Road, Nor:CPN0015", rfl, by decide⟩
      · exact ⟨"Castle:CPN2", rfl, by decide⟩)
  obtain ⟨c, s, hc, hids, _, _, _, _, _, _, hrem⟩ := hidx 1
    (RawCarPark.mk (some "Castle:CPN2") (some "open") 600 500 (PyFloat.mk 1200 1)) rfl
  exact ⟨l, hok, hlen, c, hc, by rw [hrem]; decide⟩

/-- C3: for a feed with a valid publication time and well-formed
`situationRecord` elements (the five required child text fields present,
numeric values valid), parsing returns exactly one raw record per
`situationRecord` in document order — outer `situation` order, inner
`situationRecord` order, as listed by `recordsOf` — with each field extracted
from the corresponding child, together with the parsed publication
timestamp. -/
theorem C3_parse_round_trip (strptime : String → Option Timestamp) (root : XmlElem)
    (pe : XmlElem) (pts : String) (ts : Timestamp)
    (h1 : findDesc root "publicationTime" = some pe) (h2 : XmlElem.text pe = some pts)
    (h3 : strptime pts = some ts) (h4 : ∀ r ∈ recordsOf root, RecOk r) :
    ∃ l, parse_xml_data strptime root = .ok (l, ts) ∧
      l.length = (recordsOf root).length ∧
      ∀ (i : Nat) (r : XmlElem), (recordsOf root)[i]? = some r → ∃ raw, l[i]? = some raw ∧
        raw.identity = childText r "carParkIdentity" ∧
        raw.status = childText r "carParkStatus" ∧
        (∃ s, childText r "occupiedSpaces" = some s ∧ pyInt s = some raw.occupied_spaces) ∧
        (∃ s, childText r "totalCapacity" = some s ∧ pyInt s = some raw.total_capacity) ∧
        (∃ s, childText r "carParkOccupancy" = some s ∧ pyFloat s = some raw.occupancy) := by
  refine ⟨(recordsOf root).map rawOf, parse_ok strptime root pe pts ts h1 h2 h3 h4,
    by simp, ?_⟩
  intro i r hi
  have hmem := getElem?_mem_list (recordsOf root) i r hi
  obtain ⟨_, _, ⟨s3, n3, hc3, hp3⟩, ⟨s4, n4, hc4, hp4⟩, ⟨s5, q5, hc5, hp5⟩⟩ := h4 r hmem
  have hmap : ((recordsOf root).map rawOf)[i]? = some (rawOf r) := by
    rw [List.getElem?_map, hi]
    rfl
  refine ⟨rawOf r, hmap, rfl, rfl, ⟨s3, hc3, ?_⟩, ⟨s4, hc4, ?_⟩, ⟨s5, hc5, ?_⟩⟩
  · simp [rawOf, hc3, hp3]
  · simp [rawOf, hc4, hp4]
  · simp [rawOf, hc5, hp5]

/-- C3 witness: the one-record sample feed parses to one raw record with the
declared publication time. -/
theorem C3_witness :
    ∃ l, parse_xml_data strptimeEx sampleOk = .ok (l, ptEx) ∧
      l.length = (recordsOf sampleOk).length := by
  obtain ⟨l, hok, hlen, _⟩ := C3_parse_round_trip strptimeEx sampleOk
    (XmlElem.mk "publicationTime" (some ptEx) []) ptEx ptEx rfl rfl (by decide)
    (by
      intro r hr
      have hrec : recordsOf sampleOk =
          [recordElem "Harford, Ipswich Road, Nor:CPN0015" "open" "120" "500" "24.0"] := rfl
      rw [hrec] at hr
      simp only [List.mem_cons, List.not_mem_nil, or_false] at hr
      subst hr
      exact ⟨⟨XmlElem.mk "carParkIdentity" (some "Harford, Ipswich Road, Nor:CPN0015") [],
          "Harford, Ipswich Road, Nor:CPN0015", rfl, rfl⟩,
        ⟨XmlElem.mk "carParkStatus" (some "open") [], "open", rfl, rfl⟩,
        ⟨"120", 120, rfl, by decide⟩, ⟨"500", 500, rfl, by decide⟩,
        ⟨"24.0", PyFloat.mk 240 1, rfl, by decide⟩⟩)
  exact ⟨l, hok, hlen⟩

/-- C4: parsing has no per-record recovery: if any `situationRecord` of the
feed is missing a required child element or has a malformed numeric/float
field, the whole parse fails with an error, and `refresh()` on that feed
reports failure and returns zero records — never a partial list. -/
theorem C4_bad_record_aborts (strptime : String → Option Timestamp)
    (fmt_tb : PyErr → List String) (st : LPNState) (root : XmlElem) (r : XmlElem)
    (hr : r ∈ recordsOf root) (hb : BadRec r) :
    (∃ e, parse_xml_data strptime root = .error e) ∧
    (refresh strptime fmt_tb (.ok root) st).1 = [] ∧
    (refresh strptime fmt_tb (.ok root) st).2.success = some false := by
  obtain ⟨e, he⟩ := parse_err_of_bad strptime root r hr hb
  have hre : refresh_err strptime (.ok root) = some e := by
    simp [refresh_err, he]
  obtain ⟨h1, h2, _, _⟩ := refresh_err_spec strptime fmt_tb (.ok root) st e hre
  exact ⟨⟨e, he⟩, h1, h2⟩

/-- C4 witness: a feed whose second `situationRecord` is missing
`carParkOccupancy` makes the whole parse fail and `refresh` return zero
records. -/
theorem C4_witness :
    (∃ e, parse_xml_data strptimeEx sampleBad = .error e) ∧
    (refresh strptimeEx fmtTbEx (.ok sampleBad) initState).1 = [] ∧
    (refresh strptimeEx fmtTbEx (.ok sampleBad) initState).2.success = some false := by
  have hmem : badRec2 ∈ recordsOf sampleBad := by
    have hrec : recordsOf sampleBad =
        [recordElem "Harford, Ipswich Road, Nor:CPN0015" "open" "120" "500" "24.0",
          badRec2] := rfl
    rw [hrec]
    exact List.mem_cons_of_mem _ (List.mem_cons_self _ _)
  exact C4_bad_record_aborts strptimeEx fmtTbEx initState sampleBad badRec2 hmem
    (Or.inr (Or.inr (Or.inr (Or.inr (Or.inl rfl)))))

/-- C5 counterexample: the first substitution is not restricted to a trailing
occurrence — a leading whole-word `Nor` is replaced too, so the claim that
only trailing patterns are recognised and no other part of the name is
altered is false on the code. -/
theorem C5_counterexample :
    repairName "Nor Street" = "Norwich Street" ∧ "Norwich Street" ≠ "Nor Street" := by
  constructor
  · decide
  · decide

/-- C5 amended: the name repair applies
`sub(r'Nor(?:wic)?\b', 'Norwich', name)` then `sub(r'NORW\b', 'NORWICH',
name)` globally, replacing every occurrence of `Nor`/`Norwic` followed by a
word boundary (then every such `NORW`), at any position and not only at the
end of the name, case-sensitively; a name is left unchanged exactly when it
contains no such occurrence. -/
theorem C5_amended_global_subst :
    (∀ s : String, repairName s = s ↔ (noNorMatch s.data = true ∧ noNorwMatch s.data = true)) ∧
    repairName "Nor Street" = "Norwich Street" ∧
    repairName "NORW Road" = "NORWICH Road" ∧
    repairName "Harford, Ipswich Road, Nor" = "Harford, Ipswich Road, Norwich" ∧
    repairName "Norfolk" = "Norfolk" ∧ repairName "Norwich" = "Norwich" := by
  exact ⟨repairName_fixed_iff, by decide, by decide, by decide, by decide, by decide⟩

/-- C6: a raw record whose identity contains no colon makes
`identity_parts[1]` raise `IndexError` in the transform, and when such a
record is among the parsed records, `refresh()` surfaces the failure through
the envelope — empty list, `success = False` — rather than letting the
exception escape. -/
theorem C6_identity_no_colon (r : RawCarPark) (s : String)
    (h1 : r.identity = some s) (h2 : ':' ∉ s.data) :
    transform_one r = .error (.indexError "list index out of range") ∧
    ∀ (strptime : String → Option Timestamp) (fmt_tb : PyErr → List String) (st : LPNState)
      (root : XmlElem) (car_park_data : List RawCarPark) (ts : Timestamp),
      parse_xml_data strptime root = .ok (car_park_data, ts) → r ∈ car_park_data →
      (refresh strptime fmt_tb (.ok root) st).1 = [] ∧
      (refresh strptime fmt_tb (.ok root) st).2.success = some false := by
  have hlen : (splitOnColon s.data).length = 1 := (splitOnColon_len_one s.data).mpr h2
  have htone := transform_one_no_colon r s h1 hlen
  refine ⟨htone, ?_⟩
  intro strptime fmt_tb st root car_park_data ts hp hmem
  obtain ⟨e, he⟩ := mapE_err_of_mem transform_one r car_park_data hmem
    (fun v hv => by rw [htone] at hv; exact Except.noConfusion hv)
  have hre : refresh_err strptime (.ok root) = some e := by
    simp [refresh_err, hp, transform_data_to_car_parks, he]
  obtain ⟨ha, hs, _, _⟩ := refresh_err_spec strptime fmt_tb (.ok root) st e hre
  exact ⟨ha, hs⟩

/-- C6 witness: the identity `"NoColonHere"` in a concrete feed. -/
theorem C6_witness :
    transform_one (RawCarPark.mk (some "NoColonHere") (some "open") 10 20 (PyFloat.mk 500 1)) =
      .error (.indexError "list index out of range") ∧
    (refresh strptimeEx fmtTbEx (.ok sampleNoColon) initState).1 = [] ∧
    (refresh strptimeEx fmtTbEx (.ok sampleNoColon) initState).2.success = some false := by
  have h := C6_identity_no_colon
    (RawCarPark.mk (some "NoColonHere") (some "open") 10 20 (PyFloat.mk 500 1))
    "NoColonHere" rfl (by decide)
  have hp : parse_xml_data strptimeEx sampleNoColon =
      .ok ([RawCarPark.mk (some "NoColonHere") (some "open") 10 20 (PyFloat.mk 500 1)],
        ptEx) := rfl
  have h2 := h.2 strptimeEx fmtTbEx initState sampleNoColon
    [RawCarPark.mk (some "NoColonHere") (some "open") 10 20 (PyFloat.mk 500 1)] ptEx hp
    (List.mem_cons_self _ _)
  exact ⟨h.1, h2.1, h2.2⟩

/-- C7 (code bug in the claim's terms): on a successful `refresh()` call the
code sets `success = True`, clears `error_message` to `""`, sets
`last_updated` to the parsed publication time and returns the transformed
records — but it assigns the empty STRING `""` to `traceback`, not an empty
list of strings as the claim (and the code's own `list[str]` annotation)
state. -/
theorem C7_success_traceback_is_string :
    refresh strptimeEx fmtTbEx (Except.ok sampleOk) initState =
      ([CarPark.mk "CPN0015" "Harford, Ipswich Road, Norwich" (some "open") 120 380 500
          (PyFloat.mk 240 1)],
        LPNState.mk (some ptEx) (some true) (some "") (some (TbVal.str ""))) ∧
    (∀ frames : List String, TbVal.str "" ≠ TbVal.list frames) := by
  constructor
  · decide
  · intro frames h
    exact TbVal.noConfusion h

/-- C8 counterexample: after a successful call (publication time `ptEx`), a
second call that fails at fetch leaves `last_updated` still holding the
first call's timestamp, while the same failing call on a fresh instance
leaves it `None` — so the envelope observable after a call does depend on
values set by earlier calls, refuting the claim as stated. -/
theorem C8_counterexample :
    (refresh strptimeEx fmtTbEx (Except.error (PyErr.urlError "connection refused"))
        (refresh strptimeEx fmtTbEx (Except.ok sampleOk) initState).2).2.last_updated =
      some ptEx ∧
    (refresh strptimeEx fmtTbEx (Except.error (PyErr.urlError "connection refused"))
        initState).2.last_updated = none := by
  constructor
  · decide
  · decide

/-- C8 amended: on every `refresh()` call the returned list and the
`success`, `error_message` and `traceback` fields are computed afresh,
independent of the previous state; `last_updated`, however, is overwritten
only when parsing succeeds — a call failing at fetch or parse keeps the
previous value of `last_updated` (possibly from an earlier call). -/
theorem C8_amended_overwrite (strptime : String → Option Timestamp)
    (fmt_tb : PyErr → List String) (feed : Except PyErr XmlElem) (st : LPNState) :
    (refresh strptime fmt_tb feed st).1 = (refresh strptime fmt_tb feed initState).1 ∧
    (refresh strptime fmt_tb feed st).2.success =
      (refresh strptime fmt_tb feed initState).2.success ∧
    (refresh strptime fmt_tb feed st).2.error_message =
      (refresh strptime fmt_tb feed initState).2.error_message ∧
    (refresh strptime fmt_tb feed st).2.traceback =
      (refresh strptime fmt_tb feed initState).2.traceback ∧
    ((refresh strptime fmt_tb feed st).2.last_updated = st.last_updated ∨
      ∃ root car_park_data ts, feed = .ok root ∧
        parse_xml_data strptime root = .ok (car_park_data, ts) ∧
        (refresh strptime fmt_tb feed st).2.last_updated = some ts) := by
  cases feed with
  | error e =>
      refine ⟨rfl, rfl, rfl, rfl, Or.inl ?_⟩
      simp [refresh, failUpdate]
  | ok root =>
      cases hp : parse_xml_data strptime root with
      | error e =>
          refine ⟨?_, ?_, ?_, ?_, Or.inl ?_⟩ <;> simp [refresh, hp, failUpdate]
      | ok pr =>
          obtain ⟨raws, ts⟩ := pr
          cases ht : transform_data_to_car_parks raws with
          | error e =>
              refine ⟨?_, ?_, ?_, ?_, Or.inr ⟨root, raws, ts, rfl, hp, ?_⟩⟩ <;>
                simp [refresh, hp, ht, failUpdate]
          | ok parks =>
              refine ⟨?_, ?_, ?_, ?_, Or.inr ⟨root, raws, ts, rfl, hp, ?_⟩⟩ <;>
                simp [refresh, hp, ht]

/-- C9: the name repair (the two ordered substitutions in sequence) is
idempotent on every string; in particular the identity
`"Harford, Ipswich Road, Nor:CPN0015"` transforms to name
`"Harford, Ipswich Road, Norwich"` with code `"CPN0015"`, and
`"SOME NORW:CPX9"` yields a name ending in `"NORWICH"`. -/
theorem C9_repair_idempotent :
    (∀ s : String, repairName (repairName s) = repairName s) ∧
    (∃ c : CarPark,
      transform_one (RawCarPark.mk (some "Harford, Ipswich Road, Nor:CPN0015")
        (some "open") 120 500 (PyFloat.mk 240 1)) = .ok c ∧
      c.name = "Harford, Ipswich Road, Norwich" ∧ c.code = "CPN0015") ∧
    (∃ c : CarPark,
      transform_one (RawCarPark.mk (some "SOME NORW:CPX9") (some "open") 0 0
        (PyFloat.mk 0 0)) = .ok c ∧ ∃ p : String, c.name = p ++ "NORWICH") := by
  refine ⟨repairName_idem_chars,
    ⟨CarPark.mk "CPN0015" "Harford, Ipswich Road, Norwich" (some "open") 120 380 500
        (PyFloat.mk 240 1), rfl, rfl, rfl⟩,
    ⟨CarPark.mk "CPX9" "SOME NORWICH" (some "open") 0 0 0 (PyFloat.mk 0 0), rfl,
      "SOME ", rfl⟩⟩

/-- C10: a feed whose publication time parses but which has no
`situation`/`situationRecord` elements parses to an empty record list, and
`refresh()` on it returns an empty sequence with `success = True` and empty
`error_message`: an empty result does not by itself indicate failure, and the
absence of `situation` elements is not a missing required element. -/
theorem C10_empty_feed_success (strptime : String → Option Timestamp)
    (fmt_tb : PyErr → List String) (st : LPNState) (root : XmlElem) (pe : XmlElem)
    (pts : String) (ts : Timestamp)
    (h1 : findDesc root "publicationTime" = some pe) (h2 : XmlElem.text pe = some pts)
    (h3 : strptime pts = some ts) (h4 : recordsOf root = []) :
    parse_xml_data strptime root = .ok ([], ts) ∧
    refresh strptime fmt_tb (.ok root) st =
      ([], LPNState.mk (some ts) (some true) (some "") (some (TbVal.str ""))) := by
  have hp : parse_xml_data strptime root = .ok ([], ts) := by
    have hx := parse_ok strptime root pe pts ts h1 h2 h3
      (by rw [h4]; intro r hr; simp at hr)
    rw [h4] at hx
    simpa using hx
  exact ⟨hp, refresh_ok_spec strptime fmt_tb root st [] ts [] hp rfl⟩

/-- C10 witness: the concrete empty feed. -/
theorem C10_witness :
    parse_xml_data strptimeEx sampleEmpty = .ok ([], ptEx) ∧
    refresh strptimeEx fmtTbEx (.ok sampleEmpty) initState =
      ([], LPNState.mk (some ptEx) (some true) (some "") (some (TbVal.str ""))) :=
  C10_empty_feed_success strptimeEx fmtTbEx initState sampleEmpty
    (XmlElem.mk "publicationTime" (some ptEx) []) ptEx ptEx rfl rfl (by decide) rfl
